import Mathlib

/-!
Shallow embedding of the coordination core of the H2K multi-agent DeFi
system (Python sources under `backend/`), together with proofs about the
claims of its specification.

Conventions of the embedding:
* Python `float` quantities (APYs, balances, risk scores) are embedded as `ℚ`.
* Python dicts keyed by strings are embedded as association lists, preserving
  insertion/iteration order (Python dicts iterate in insertion order).
* Timestamps are `Nat` (the "current time" is passed explicitly).
* A Python function that can raise an exception which escapes it is embedded
  with an `Option`/`Except` result; a `try/except` that swallows the error is
  embedded by the corresponding case analysis on an explicit success flag.
* External collaborators (the Gemini decision oracle, the risk model, the
  yield-opportunity feed, Supabase and Redis availability and per-call
  success) are parameters.
-/

namespace H2K

/-- A yield opportunity as produced by the external opportunity feed:
a dict carrying at least `protocol` and `apy`. -/
structure Opportunity where
  protocol : String
  apy : ℚ
deriving Repr, DecidableEq

/-- One entry of the `positions` dict (`protocol name → attributes`).
The strategy agent only ever tests membership of the `"apy"` key and reads
it, so the attributes are embedded as the optional APY. -/
structure Position where
  apy : Option ℚ
deriving Repr, DecidableEq

/-- The strategy proposal dict built by `DeFiAgent._analyze_opportunities`.
The `"hold"` variant only carries `action` and `reasoning`; the `"migrate"`
variant carries every field.  Absent dict keys are `none`. -/
structure Proposal where
  action : String
  source : Option String
  destination : Option String
  asset : Option String
  amount : Option ℚ
  current_apy : Option ℚ
  new_apy : Option ℚ
  apy_gain : Option ℚ
  reasoning : String
deriving Repr, DecidableEq

/-- The risk assessment dict.  `RiskAgent.execute` writes either the
short-circuit dict `{"safe": True, "score": 0}` or the full assessment;
keys absent from a variant are `none`. -/
structure RiskAssessment where
  safe : Bool
  score : Option ℚ
  protocol : Option String
  risk_score : Option ℚ
  factors : Option String
  threshold : Option ℚ
deriving Repr, DecidableEq

/-- The routing decision parsed from the oracle's JSON reply.  The source
reads both fields with `dict.get` and a default, so each is optional. -/
structure OracleDecision where
  next_agent : Option String
  reasoning : Option String
deriving Repr, DecidableEq

/-- Outcome of the external oracle call plus JSON parse: either a parsed
decision object, or an exception (API failure, malformed JSON, non-object
reply) whose message is carried. -/
inductive OracleResult where
  | ok (d : OracleDecision)
  | fail (msg : String)
deriving Repr, DecidableEq

/-- `AgentState`: the shared "whiteboard" dict defined in
`coordination_layer/state.py`, threaded through every agent. -/
structure AgentState where
  portfolio_id : String
  execution_id : String
  user_input : String
  wallet_address : String
  chain_id : Nat
  balances : List (String × ℚ)
  positions : List (String × Position)
  orchestrator_decision : Option OracleDecision
  defi_proposal : Option Proposal
  risk_assessment : Option RiskAssessment
  prediction_forecast : Option String
  productivity_actions : Option (List String)
  qa_results : Option String
  executed_transactions : List String
  pending_transactions : List String
  agent_reasoning : List String
  next_agent : String
  iteration_count : Nat
  error_messages : List String
  created_at : Nat
  updated_at : Nat
deriving Repr, DecidableEq

/-! ## Formatting helpers

`_analyze_opportunities` interpolates `f"{apy_diff:.2%}"` and the risk
agent `f"{risk_score:.1f}"` into reasoning strings.  These embed
Python's fixed-point formatting (round-half-up; the claims under proof never
depend on the rendered digits, only on which string is appended). -/

/-- Render `q` as a percentage with two decimals, like Python `.2%`. -/
def fmtPct (q : ℚ) : String :=
  let n : Int := Int.floor (q * 10000 + 1/2)
  let whole := n / 100
  let frac := (n % 100).natAbs
  toString whole ++ "." ++ (if frac < 10 then "0" else "") ++ toString frac ++ "%"

/-- Render `q` with one decimal, like Python `.1f`. -/
def fmtFix1 (q : ℚ) : String :=
  let n : Int := Int.floor (q * 10 + 1/2)
  toString (n / 10) ++ "." ++ toString ((n % 10).natAbs)

/-! ## Strategy-agent core logic (`DeFiAgent._analyze_opportunities`) -/

/-- Python's `max(opportunities, key=lambda x: x['apy'])`: `none` on the
empty list (where CPython raises `ValueError`), otherwise a left fold that
replaces the current best only on a strictly greater key, so the first
maximum encountered wins. -/
def pyMaxByApy (l : List Opportunity) : Option Opportunity :=
  match l with
  | [] => none
  | x :: xs => some (xs.foldl (fun b y => if b.apy < y.apy then y else b) x)

/-- The `for protocol, position_data in positions.items(): if "apy" in
position_data: ... break` scan: the first position carrying an `apy` key. -/
def firstPositionWithApy (positions : List (String × Position)) :
    Option (String × ℚ) :=
  match positions.find? (fun p => p.2.apy.isSome) with
  | some p => p.2.apy.map (fun a => (p.1, a))
  | none => none

/-- `DeFiAgent._analyze_opportunities(positions, balances, opportunities)`,
with the configured `settings.MIN_APY_DIFF` passed as `minApyDiff` (the
`config.settings` module is not part of the coordination core sources).
`none` embeds the uncaught `ValueError` that `max` raises on an empty
opportunity list. -/
def analyze_opportunities (positions : List (String × Position))
    (balances : List (String × ℚ)) (opportunities : List Opportunity)
    (minApyDiff : ℚ) : Option Proposal :=
  let cur := firstPositionWithApy positions
  let current_apy := (cur.map (fun p => p.2)).getD 0
  let current_protocol := cur.map (fun p => p.1)
  match pyMaxByApy opportunities with
  | none => none
  | some best =>
    let apy_diff := best.apy - current_apy
    if apy_diff > minApyDiff then
      some
        { action := "migrate"
          source := some (current_protocol.getD "wallet")
          destination := some best.protocol
          asset := some "USDC"
          amount := some ((balances.lookup "USDC").getD 0)
          current_apy := some current_apy
          new_apy := some best.apy
          apy_gain := some apy_diff
          reasoning := "Found " ++ fmtPct apy_diff ++ " APY gain by moving to "
            ++ best.protocol }
    else
      some
        { action := "hold"
          source := none
          destination := none
          asset := none
          amount := none
          current_apy := none
          new_apy := none
          apy_gain := none
          reasoning := "Best APY is " ++ fmtPct best.apy ++ ", only "
            ++ fmtPct apy_diff ++ " gain. Not worth gas costs." }

/-! ## Coordination layer (`coordination_layer/layer.py`)

The Supabase store and the Redis cache are external collaborators.  The
store is embedded as lists of table rows; the Redis key-value cache as a
list of entries with a TTL.  Availability of each client
(`self.supabase`/`self.redis_enabled`) and per-call success of each
network operation are explicit flags gathered in `CoordEnv`; a flag being
`false` embeds a raised client exception, which every layer method
catches. -/

/-- One Redis entry written by `SETEX` (key, value, time-to-live). -/
structure CacheEntry where
  key : String
  value : AgentState
  ttl : Nat
deriving Repr, DecidableEq

/-- A row of the `portfolios` table. -/
structure PortfolioRow where
  id : Nat
  user_id : String
  wallet_address : String
  chain_id : Nat
deriving Repr, DecidableEq

/-- A row of the `agent_executions` table. -/
structure ExecRow where
  execution_id : String
  portfolio_id : String
  state_data : AgentState
  status : String
  updated_at : Nat
deriving Repr, DecidableEq

/-- The `decision_data` payload of a decision row: the strategy agent logs
its proposal, the orchestrating agent its routing decision. -/
inductive DecisionData where
  | strategy (p : Proposal)
  | routing (d : OracleDecision)
deriving Repr, DecidableEq

/-- A row of the `agent_decisions` table. -/
structure DecisionRow where
  execution_id : String
  portfolio_id : String
  agent_name : String
  decision_type : String
  decision_data : DecisionData
  reasoning : String
deriving Repr, DecidableEq

/-- A row of the `agent_reasoning` table. -/
structure ReasoningRow where
  execution_id : String
  agent_name : String
  step_number : Nat
  reasoning_text : String
deriving Repr, DecidableEq

/-- A row of the `risk_assessments` table. -/
structure RiskRow where
  execution_id : String
  portfolio_id : String
  protocol : String
  risk_score : ℚ
  risk_factors : String
  safe : Bool
deriving Repr, DecidableEq

/-- A row of the `balances` table. -/
structure BalanceRow where
  portfolio_id : String
  asset : String
  amount : ℚ
  location : String
deriving Repr, DecidableEq

/-- A row of the `executed_transactions` table. -/
structure TxRow where
  execution_id : String
  portfolio_id : String
  tx_hash : String
  protocol : String
  action : String
  amount : ℚ
  status : String
deriving Repr, DecidableEq

/-- The durable Supabase store: the tables the layer touches, plus a
counter from which the database derives fresh generated identifiers. -/
structure StoreDB where
  portfolios : List PortfolioRow
  executions : List ExecRow
  decisions : List DecisionRow
  reasonings : List ReasoningRow
  risks : List RiskRow
  balanceRows : List BalanceRow
  transactions : List TxRow
  nextId : Nat
deriving Repr, DecidableEq

/-- Availability and per-call success flags for one layer call:
`sb` = the Supabase client was constructed, `redis` = `redis_enabled`,
the `…Ok` flags = the corresponding network operation does not raise. -/
structure CoordEnv where
  sb : Bool
  redis : Bool
  storeOk : Bool
  cacheOk : Bool
  reasonOk : Bool
  decisionOk : Bool
  riskOk : Bool
deriving Repr, DecidableEq

/-- The all-healthy environment. -/
def envOk : CoordEnv :=
  { sb := true, redis := true, storeOk := true, cacheOk := true,
    reasonOk := true, decisionOk := true, riskOk := true }

/-- Redis `GET`. -/
def cacheGet (c : List CacheEntry) (k : String) : Option AgentState :=
  (c.find? (fun e => e.key == k)).map (fun e => e.value)

/-- Redis `SETEX`: overwrite the key with a fresh TTL. -/
def cacheSetex (c : List CacheEntry) (k : String) (ttl : Nat)
    (v : AgentState) : List CacheEntry :=
  ⟨k, v, ttl⟩ :: c.filter (fun e => !(e.key == k))

/-- `CoordinationLayer.create_portfolio` (the spec's `getOrCreatePortfolio`).
The Supabase client's `upsert(..., on_conflict="wallet_address")` is an
external collaborator; it is modelled from the spec: "Upsert semantics
required on portfolio creation, keyed by wallet address" (§6) — on conflict
the existing row is updated in place keeping its id, otherwise a row with
a fresh generated id is inserted, and the affected row is returned.
Returns `none` when the client is absent or the call raises (caught and
logged by the source). -/
def create_portfolio (env : CoordEnv) (user_id wallet_address : String)
    (chain_id : Nat) (db : StoreDB) : Option Nat × StoreDB :=
  if !env.sb then (none, db)
  else if !env.storeOk then (none, db)
  else
    match db.portfolios.find? (fun r => r.wallet_address == wallet_address) with
    | some row =>
      (some row.id,
       { db with
          portfolios := db.portfolios.map (fun r =>
            if r.wallet_address == wallet_address then
              { r with user_id := user_id, chain_id := chain_id }
            else r) })
    | none =>
      (some db.nextId,
       { db with
          portfolios := db.portfolios ++
            [⟨db.nextId, user_id, wallet_address, chain_id⟩],
          nextId := db.nextId + 1 })

/-- `CoordinationLayer.read_state`.  Tries the cache first (any cache
exception is swallowed), then the store.  The second component is the
cache as it stands after the call: the source performs no cache write on
any path, so it is returned unchanged. -/
def read_state (env : CoordEnv) (db : StoreDB) (cache : List CacheEntry)
    (execution_id : String) : Option AgentState × List CacheEntry :=
  let hit :=
    if env.redis && env.cacheOk then cacheGet cache ("state:" ++ execution_id)
    else none
  match hit with
  | some st => (some st, cache)
  | none =>
    if !env.sb then (none, cache)
    else if !env.storeOk then (none, cache)
    else
      match db.executions.find? (fun r => r.execution_id == execution_id) with
      | some row => (some row.state_data, cache)
      | none => (none, cache)

/-- `CoordinationLayer.write_state`: stamp `updated_at`, update the
matching `agent_executions` row (status always `"running"`) when the store
is reachable, then refresh the cache with TTL `self.cache_ttl = 300`.
Both network operations are inside `try/except` blocks that swallow the
error, so the function always returns; the first component is the stamped
state (the source mutates the caller's dict in place). -/
def write_state (env : CoordEnv) (db : StoreDB) (cache : List CacheEntry)
    (now : Nat) (s : AgentState) : AgentState × StoreDB × List CacheEntry :=
  let stamped := { s with updated_at := now }
  let db2 :=
    if env.sb && env.storeOk then
      { db with
          executions := db.executions.map (fun r =>
            if r.execution_id == stamped.execution_id then
              { r with state_data := stamped, status := "running",
                       updated_at := now }
            else r) }
    else db
  let cache2 :=
    if env.redis && env.cacheOk then
      cacheSetex cache ("state:" ++ stamped.execution_id) 300 stamped
    else cache
  (stamped, db2, cache2)

/-- `CoordinationLayer.write_state` viewed as a call: the body catches
every exception either network operation can raise, so the call always
returns normally — it is `.ok` for every environment. -/
def write_state_call (env : CoordEnv) (db : StoreDB) (cache : List CacheEntry)
    (now : Nat) (s : AgentState) :
    Except String (AgentState × StoreDB × List CacheEntry) :=
  Except.ok (write_state env db cache now s)

/-- `CoordinationLayer.init_execution`: insert a fresh `agent_executions`
row with status `"running"` and return its database-generated id;
`"mock_execution_id"` when the client is absent, `none` when the insert
raises (caught by the source). -/
def init_execution (env : CoordEnv) (portfolio_id : String)
    (initial_state : AgentState) (db : StoreDB) : Option String × StoreDB :=
  if !env.sb then (some "mock_execution_id", db)
  else if !env.storeOk then (none, db)
  else
    let eid := "exec_" ++ toString db.nextId
    (some eid,
     { db with
        executions := db.executions ++
          [⟨eid, portfolio_id, initial_state, "running",
            initial_state.updated_at⟩],
        nextId := db.nextId + 1 })

/-- `CoordinationLayer.log_agent_decision`: best-effort insert into
`agent_decisions`; failure is swallowed. -/
def log_agent_decision (env : CoordEnv) (db : StoreDB)
    (portfolio_id execution_id agent_name decision_type : String)
    (decision_data : DecisionData) (reasoning : String) : StoreDB :=
  if env.sb && env.decisionOk then
    { db with
        decisions := db.decisions ++
          [⟨execution_id, portfolio_id, agent_name, decision_type,
            decision_data, reasoning⟩] }
  else db

/-- `CoordinationLayer.log_agent_reasoning`: best-effort insert into
`agent_reasoning`; failure is swallowed. -/
def log_agent_reasoning (env : CoordEnv) (db : StoreDB)
    (execution_id agent_name : String) (step_number : Nat)
    (reasoning_text : String) : StoreDB :=
  if env.sb && env.reasonOk then
    { db with
        reasonings := db.reasonings ++
          [⟨execution_id, agent_name, step_number, reasoning_text⟩] }
  else db

/-- `CoordinationLayer.record_risk_assessment`: best-effort insert into
`risk_assessments`; failure is swallowed. -/
def record_risk_assessment (env : CoordEnv) (db : StoreDB)
    (portfolio_id execution_id protocol : String) (risk_score : ℚ)
    (risk_factors : String) (safe : Bool) : StoreDB :=
  if env.sb && env.riskOk then
    { db with
        risks := db.risks ++
          [⟨execution_id, portfolio_id, protocol, risk_score, risk_factors,
            safe⟩] }
  else db

/-- `CoordinationLayer.update_balance`: best-effort insert into
`balances`. -/
def update_balance (env : CoordEnv) (db : StoreDB)
    (portfolio_id asset location : String) (amount : ℚ) : StoreDB :=
  if env.sb && env.storeOk then
    { db with balanceRows := db.balanceRows ++
        [⟨portfolio_id, asset, amount, location⟩] }
  else db

/-- `CoordinationLayer.record_transaction`: best-effort insert into
`executed_transactions`. -/
def record_transaction (env : CoordEnv) (db : StoreDB)
    (portfolio_id execution_id tx_hash protocol action : String)
    (amount : ℚ) (status : String) : StoreDB :=
  if env.sb && env.storeOk then
    { db with transactions := db.transactions ++
        [⟨execution_id, portfolio_id, tx_hash, protocol, action, amount,
          status⟩] }
  else db

/-! ## Agent layer (`agent_layer/`) -/

/-- `BaseAgent.log_reasoning`: durably record the reasoning row (step
number = the state's current `iteration_count`), then append
`f"{self.name}: {reasoning}"` to the in-memory reasoning chain. -/
def log_reasoning (agentName : String) (env : CoordEnv) (db : StoreDB)
    (s : AgentState) (reasoning : String) : AgentState × StoreDB :=
  let db2 := log_agent_reasoning env db s.execution_id agentName
    s.iteration_count reasoning
  ({ s with agent_reasoning :=
      s.agent_reasoning ++ [agentName ++ ": " ++ reasoning] }, db2)

/-- The reasoning string the risk agent builds from the model's score. -/
def riskReasoningText (risk_score : ℚ) (is_safe : Bool) : String :=
  "Risk Score: " ++ fmtFix1 risk_score ++ "/10. " ++
    (if is_safe then "SAFE ✅" else "TOO RISKY ❌")

/-- Result of one agent `execute` call: the Python return value (`none`
embeds `return` without a value or an escaping exception), the state dict
as mutated in place, and the store/cache as left by the call. -/
structure ExecOutcome where
  ret : Option AgentState
  state : AgentState
  db : StoreDB
  cache : List CacheEntry
deriving Repr, DecidableEq

/-- `OrchestratorAgent.execute`.  The Gemini call plus JSON parse is the
external oracle, passed as `oracle`.  On a parsed reply: log reasoning and
the routing decision, store the decision, route to its `next_agent`
(default `"END"`), increment `iteration_count`, persist, return the state.
Any oracle/parse exception lands in the `except` arm: append the message
to `error_messages`, route to `"END"`, return the state — nothing is
persisted and no exception escapes. -/
def orchestrator_execute (env : CoordEnv) (oracle : OracleResult) (now : Nat)
    (db : StoreDB) (cache : List CacheEntry) (s : AgentState) : ExecOutcome :=
  match oracle with
  | .fail msg =>
    let s2 := { s with error_messages := s.error_messages ++ [msg],
                       next_agent := "END" }
    ⟨some s2, s2, db, cache⟩
  | .ok d =>
    let reasoning := d.reasoning.getD "No reasoning provided"
    let next := d.next_agent.getD "END"
    let (s1, db1) := log_reasoning "Orchestrator" env db s reasoning
    let db2 := log_agent_decision env db1 s1.portfolio_id s1.execution_id
      "Orchestrator" "routing" (.routing d) reasoning
    let s2 := { s1 with orchestrator_decision := some d, next_agent := next,
                        iteration_count := s1.iteration_count + 1 }
    let (s3, db3, c3) := write_state env db2 cache now s2
    ⟨some s3, s3, db3, c3⟩

/-- `RiskAgent.execute`.  The EBM risk model (`models/risk_ebm.py`, an
external collaborator of the coordination core) is passed as `assess`
(score and factor breakdown per protocol name) and the configured
`settings.RISK_THRESHOLD` as `threshold`.  With no proposal or a `"hold"`
proposal it short-circuits: writes `{"safe": True, "score": 0}`, routes to
`"orchestrator"` and returns the state — without logging or persisting.
Otherwise it assesses, logs, records, persists — and then falls off the
function with a bare `return`, so the Python return value is `None`
(`ret = none`) even though the state dict was mutated. -/
def risk_execute (env : CoordEnv) (assess : String → ℚ × String)
    (threshold : ℚ) (now : Nat) (db : StoreDB) (cache : List CacheEntry)
    (s : AgentState) : ExecOutcome :=
  match s.defi_proposal with
  | none =>
    let s2 := { s with
      risk_assessment := some ⟨true, some 0, none, none, none, none⟩,
      next_agent := "orchestrator" }
    ⟨some s2, s2, db, cache⟩
  | some proposal =>
    if proposal.action == "hold" then
      let s2 := { s with
        risk_assessment := some ⟨true, some 0, none, none, none, none⟩,
        next_agent := "orchestrator" }
      ⟨some s2, s2, db, cache⟩
    else
      let protocol := proposal.destination.getD "Unknown"
      let (risk_score, risk_factors) := assess protocol
      let is_safe := risk_score < threshold
      let assessment : RiskAssessment :=
        ⟨is_safe, none, some protocol, some risk_score, some risk_factors,
         some threshold⟩
      let reasoning := riskReasoningText risk_score is_safe
      let (s1, db1) := log_reasoning "Risk_Agent" env db s reasoning
      let db2 := record_risk_assessment env db1 s1.portfolio_id
        s1.execution_id protocol risk_score risk_factors is_safe
      let s2 := { s1 with risk_assessment := some assessment,
                          next_agent := "orchestrator" }
      let (s3, db3, c3) := write_state env db2 cache now s2
      ⟨none, s3, db3, c3⟩

/-- `DeFiAgent.execute`.  The opportunity feed
(`tools/defi_tools.get_all_opportunities`, an external collaborator) is
passed as `opportunities`, the configured `settings.MIN_APY_DIFF` as
`minApyDiff`.  When `_analyze_opportunities` raises (empty opportunity
list) the exception escapes `execute` before any mutation: the outcome is
`none`.  Otherwise: log reasoning and the strategy decision, write the
proposal, route back to `"orchestrator"`, persist, return the state. -/
def defi_execute (env : CoordEnv) (opportunities : List Opportunity)
    (minApyDiff : ℚ) (now : Nat) (db : StoreDB) (cache : List CacheEntry)
    (s : AgentState) : Option ExecOutcome :=
  match analyze_opportunities s.positions s.balances opportunities
      minApyDiff with
  | none => none
  | some proposal =>
    let reasoning := proposal.reasoning
    let (s1, db1) := log_reasoning "DeFi_Agent" env db s reasoning
    let db2 := log_agent_decision env db1 s1.portfolio_id s1.execution_id
      "DeFi_Agent" "strategy" (.strategy proposal) reasoning
    let s2 := { s1 with defi_proposal := some proposal,
                        next_agent := "orchestrator" }
    let (s3, db3, c3) := write_state env db2 cache now s2
    some ⟨some s3, s3, db3, c3⟩

/-! ## Spec-side definitions

`strategyRuleSpec` is written from the specification's words (§4.2:
"let `current_apy` be the APY of the first active position found …
Let `best` be the opportunity with the maximum APY among all candidates
(ties broken by input order — first maximum encountered wins)"), to be
compared with `analyze_opportunities`, which is translated from the
source. -/

/-- The first opportunity attaining the maximum APY: the first element
whose APY is ≥ every candidate's. -/
def firstMaxOpportunity (l : List Opportunity) : Option Opportunity :=
  l.find? (fun o => l.all (fun o2 => decide (o2.apy ≤ o.apy)))

/-- The strategy decision rule as the specification words it. -/
def strategyRuleSpec (positions : List (String × Position))
    (balances : List (String × ℚ)) (opportunities : List Opportunity)
    (minApyDiff : ℚ) : Option Proposal :=
  let cur := firstPositionWithApy positions
  let current_apy := (cur.map (fun p => p.2)).getD 0
  let current_protocol := cur.map (fun p => p.1)
  match firstMaxOpportunity opportunities with
  | none => none
  | some best =>
    let apy_diff := best.apy - current_apy
    if apy_diff > minApyDiff then
      some
        { action := "migrate"
          source := some (current_protocol.getD "wallet")
          destination := some best.protocol
          asset := some "USDC"
          amount := some ((balances.lookup "USDC").getD 0)
          current_apy := some current_apy
          new_apy := some best.apy
          apy_gain := some apy_diff
          reasoning := "Found " ++ fmtPct apy_diff ++ " APY gain by moving to "
            ++ best.protocol }
    else
      some
        { action := "hold"
          source := none
          destination := none
          asset := none
          amount := none
          current_apy := none
          new_apy := none
          apy_gain := none
          reasoning := "Best APY is " ++ fmtPct best.apy ++ ", only "
            ++ fmtPct apy_diff ++ " gain. Not worth gas costs." }

/-! ## Sequences of coordination-layer calls (for the status invariant) -/

/-- One call against the coordination layer, with the environment it ran
under and its arguments.  Covers every public method of
`CoordinationLayer` that can touch the store or the cache. -/
inductive CoordOp where
  | opWrite (env : CoordEnv) (now : Nat) (s : AgentState)
  | opInit (env : CoordEnv) (portfolio_id : String) (s : AgentState)
  | opRead (env : CoordEnv) (execution_id : String)
  | opCreatePortfolio (env : CoordEnv) (user_id wallet_address : String)
      (chain_id : Nat)
  | opLogDecision (env : CoordEnv)
      (portfolio_id execution_id agent_name decision_type : String)
      (dd : DecisionData) (reasoning : String)
  | opLogReasoning (env : CoordEnv) (execution_id agent_name : String)
      (step_number : Nat) (reasoning_text : String)
  | opRecordRisk (env : CoordEnv)
      (portfolio_id execution_id protocol : String) (risk_score : ℚ)
      (risk_factors : String) (safe : Bool)
  | opUpdateBalance (env : CoordEnv) (portfolio_id asset location : String)
      (amount : ℚ)
  | opRecordTx (env : CoordEnv)
      (portfolio_id execution_id tx_hash protocol action : String)
      (amount : ℚ) (status : String)
deriving Repr

/-- Effect of one layer call on the store and the cache. -/
def applyOp (w : StoreDB × List CacheEntry) (op : CoordOp) :
    StoreDB × List CacheEntry :=
  match op with
  | .opWrite env now s =>
    let r := write_state env w.1 w.2 now s
    (r.2.1, r.2.2)
  | .opInit env pid s => ((init_execution env pid s w.1).2, w.2)
  | .opRead env eid => (w.1, (read_state env w.1 w.2 eid).2)
  | .opCreatePortfolio env u wa c => ((create_portfolio env u wa c w.1).2, w.2)
  | .opLogDecision env pid eid an dt dd r =>
    (log_agent_decision env w.1 pid eid an dt dd r, w.2)
  | .opLogReasoning env eid an step txt =>
    (log_agent_reasoning env w.1 eid an step txt, w.2)
  | .opRecordRisk env pid eid proto score factors safe =>
    (record_risk_assessment env w.1 pid eid proto score factors safe, w.2)
  | .opUpdateBalance env pid asset loc amt =>
    (update_balance env w.1 pid asset loc amt, w.2)
  | .opRecordTx env pid eid txh proto act amt st =>
    (record_transaction env w.1 pid eid txh proto act amt st, w.2)

/-- Effect of a whole sequence of layer calls. -/
def runOps (w : StoreDB × List CacheEntry) (ops : List CoordOp) :
    StoreDB × List CacheEntry :=
  ops.foldl applyOp w

/-- Every persisted execution row carries status `"running"`. -/
def allRunning (db : StoreDB) : Prop :=
  ∀ r ∈ db.executions, r.status = "running"

/-! ## Concrete fixtures (the specification's worked scenario) -/

/-- Positions of the worked scenario: one aave position at 5% APY. -/
def scenPositions : List (String × Position) := [("aave", ⟨some (5/100)⟩)]

/-- Balances of the worked scenario. -/
def scenBalances : List (String × ℚ) := [("USDC", 10000)]

/-- Opportunities of the worked scenario. -/
def scenOpps : List Opportunity := [⟨"aave", 5/100⟩, ⟨"compound", 9/100⟩]


/-- A concrete execution state used to exercise the agents. -/
def sampleState : AgentState :=
  { portfolio_id := "p1", execution_id := "e1",
    user_input := "Find me the best yield opportunity for my USDC",
    wallet_address := "0xDemoWallet123", chain_id := 1,
    balances := scenBalances, positions := scenPositions,
    orchestrator_decision := none, defi_proposal := none,
    risk_assessment := none, prediction_forecast := none,
    productivity_actions := none, qa_results := none,
    executed_transactions := [], pending_transactions := [],
    agent_reasoning := [], next_agent := "orchestrator",
    iteration_count := 0, error_messages := [], created_at := 0,
    updated_at := 0 }

/-- A concrete store holding the execution row for `sampleState`. -/
def sampleDB : StoreDB :=
  { portfolios := [⟨7, "demo_user_1", "0xDemoWallet123", 1⟩],
    executions := [⟨"e1", "p1", sampleState, "running", 0⟩],
    decisions := [], reasonings := [], risks := [], balanceRows := [],
    transactions := [], nextId := 8 }

/-- A concrete hold proposal, as built by the strategy agent. -/
def sampleHold : Proposal :=
  { action := "hold", source := none, destination := none, asset := none,
    amount := none, current_apy := none, new_apy := none, apy_gain := none,
    reasoning := "Best APY is 9.00%, only 4.00% gain. Not worth gas costs." }

/-- A concrete migrate proposal, as built by the strategy agent. -/
def sampleMigrate : Proposal :=
  { action := "migrate", source := some "aave",
    destination := some "compound", asset := some "USDC",
    amount := some 10000, current_apy := some (5/100),
    new_apy := some (9/100), apy_gain := some (4/100),
    reasoning := "Found 4.00% APY gain by moving to compound" }

/-- A concrete risk model: every protocol scores 3 out of 10. -/
def sampleAssess : String → ℚ × String := fun _ => (3, "audited")

/-- Number of portfolio rows recorded for a wallet address. -/
def walletCount (db : StoreDB) (wallet_address : String) : Nat :=
  db.portfolios.countP (fun r => r.wallet_address == wallet_address)

/-- `sampleState` carrying a hold proposal. -/
def sampleStateHold : AgentState :=
  { sampleState with defi_proposal := some sampleHold }

/-- `sampleState` carrying a migrate proposal. -/
def sampleStateMigrate : AgentState :=
  { sampleState with defi_proposal := some sampleMigrate }

/-! ## Helper lemmas -/


theorem foldlMax_decomp (x : Opportunity) (xs : List Opportunity) :
    ∃ l1 l2,
      x :: xs = l1 ++ (xs.foldl (fun b y => if b.apy < y.apy then y else b) x) :: l2 ∧
      (∀ o ∈ x :: xs, o.apy ≤ (xs.foldl (fun b y => if b.apy < y.apy then y else b) x).apy) ∧
      (∀ o ∈ l1, o.apy < (xs.foldl (fun b y => if b.apy < y.apy then y else b) x).apy) := by
  induction xs generalizing x with
  | nil => exact ⟨[], [], rfl, by simp, by simp⟩
  | cons y ys ih =>
    by_cases hxy : x.apy < y.apy
    · simp only [List.foldl_cons, if_pos hxy]
      obtain ⟨l1, l2, hdec, hub, hlt⟩ := ih y
      refine ⟨x :: l1, l2, ?_, ?_, ?_⟩
      · rw [List.cons_append, ← hdec]
      · intro o ho
        rcases List.mem_cons.mp ho with h | ho2
        · exact h ▸ le_of_lt (lt_of_lt_of_le hxy (hub y (List.mem_cons_self _ _)))
        · exact hub o ho2
      · intro o ho
        rcases List.mem_cons.mp ho with h | ho2
        · exact h ▸ lt_of_lt_of_le hxy (hub y (List.mem_cons_self _ _))
        · exact hlt o ho2
    · simp only [List.foldl_cons, if_neg hxy]
      obtain ⟨l1, l2, hdec, hub, hlt⟩ := ih x
      cases l1 with
      | nil =>
        simp only [List.nil_append] at hdec
        have hb : ys.foldl (fun b y => if b.apy < y.apy then y else b) x = x := by
          have := hdec
          injection this with h1 h2
          exact h1.symm
        refine ⟨[], y :: ys, ?_, ?_, by simp⟩
        · simp [hb]
        · intro o ho
          rcases List.mem_cons.mp ho with h | ho2
          · exact h ▸ hub x (List.mem_cons_self _ _)
          rcases List.mem_cons.mp ho2 with h | ho3
          · rw [h, hb]; exact not_lt.mp hxy
          · exact hub o (List.mem_cons_of_mem _ ho3)
      | cons a l1t =>
        simp only [List.cons_append] at hdec
        injection hdec with h1 h2
        have hxlt : x.apy <
            (ys.foldl (fun b y => if b.apy < y.apy then y else b) x).apy := by
          have h3 := hlt a (List.mem_cons_self _ _)
          rw [← h1] at h3
          exact h3
        refine ⟨x :: y :: l1t, l2, ?_, ?_, ?_⟩
        · rw [List.cons_append, List.cons_append, ← h2]
        · intro o ho
          rcases List.mem_cons.mp ho with h | ho2
          · exact h ▸ hub x (List.mem_cons_self _ _)
          rcases List.mem_cons.mp ho2 with h | ho3
          · exact h ▸ le_of_lt (lt_of_le_of_lt (not_lt.mp hxy) hxlt)
          · exact hub o (List.mem_cons_of_mem _ ho3)
        · intro o ho
          rcases List.mem_cons.mp ho with h | ho2
          · exact h ▸ hxlt
          rcases List.mem_cons.mp ho2 with h | ho3
          · exact h ▸ lt_of_le_of_lt (not_lt.mp hxy) hxlt
          · exact hlt o (List.mem_cons_of_mem _ ho3)

theorem pyMaxByApy_decomp (l : List Opportunity) (b : Opportunity)
    (h : pyMaxByApy l = some b) :
    ∃ l1 l2, l = l1 ++ b :: l2 ∧ (∀ o ∈ l, o.apy ≤ b.apy) ∧
      ∀ o ∈ l1, o.apy < b.apy := by
  cases l with
  | nil => simp [pyMaxByApy] at h
  | cons x xs =>
    simp only [pyMaxByApy, Option.some.injEq] at h
    exact h ▸ foldlMax_decomp x xs



theorem find?_first_in_append {α : Type} (p : α → Bool) (l1 : List α) (b : α)
    (l2 : List α) (h1 : ∀ a ∈ l1, p a = false) (hb : p b = true) :
    List.find? p (l1 ++ b :: l2) = some b := by
  induction l1 with
  | nil => simpa using List.find?_cons_of_pos _ hb
  | cons a t ih =>
    rw [List.cons_append, List.find?_cons_of_neg]
    · exact ih (fun x hx => h1 x (List.mem_cons_of_mem _ hx))
    · simp [h1 a (List.mem_cons_self _ _)]

theorem pyMaxByApy_eq_firstMax (l : List Opportunity) :
    pyMaxByApy l = firstMaxOpportunity l := by
  cases hl : pyMaxByApy l with
  | none =>
    cases l with
    | nil => rfl
    | cons x xs => simp [pyMaxByApy] at hl
  | some b =>
    obtain ⟨l1, l2, hdec, hub, hlt⟩ := pyMaxByApy_decomp l b hl
    subst hdec
    unfold firstMaxOpportunity
    refine (find?_first_in_append _ l1 b l2 ?_ ?_).symm
    · intro a ha
      have hab : a.apy < b.apy := hlt a ha
      rw [List.all_eq_false]
      refine ⟨b, List.mem_append_right _ (List.mem_cons_self _ _), ?_⟩
      simp [not_le.mpr hab]
    · rw [List.all_eq_true]
      intro o ho
      exact decide_eq_true (hub o ho)

theorem analyze_opportunities_eq_rule (positions : List (String × Position))
    (balances : List (String × ℚ)) (opportunities : List Opportunity)
    (minApyDiff : ℚ) :
    analyze_opportunities positions balances opportunities minApyDiff =
      strategyRuleSpec positions balances opportunities minApyDiff := by
  unfold analyze_opportunities strategyRuleSpec
  rw [pyMaxByApy_eq_firstMax]

/-- Counting under a map whose image preserves the predicate. -/
theorem countP_map_eq {α β : Type} (f : α → β) (p : β → Bool) (q : α → Bool)
    (h : ∀ a, p (f a) = q a) (l : List α) :
    (l.map f).countP p = l.countP q := by
  induction l with
  | nil => rfl
  | cons a t ih => simp [List.countP_cons, h, ih]

/-- Searching under a map whose image preserves the predicate. -/
theorem find?_map_eq {α β : Type} (f : α → β) (p : β → Bool) (q : α → Bool)
    (h : ∀ a, p (f a) = q a) (l : List α) :
    (l.map f).find? p = (l.find? q).map f := by
  induction l with
  | nil => rfl
  | cons a t ih =>
    simp only [List.map_cons, List.find?, h a]
    cases hq : q a
    · simpa using ih
    · rfl

/-- Unfolding of the portfolio upsert in the healthy environment. -/
theorem create_portfolio_envOk (u w : String) (c : Nat) (db : StoreDB) :
    create_portfolio envOk u w c db =
      match db.portfolios.find? (fun r => r.wallet_address == w) with
      | some row =>
        (some row.id,
         { db with portfolios := db.portfolios.map (fun r =>
            if r.wallet_address == w then
              { r with user_id := u, chain_id := c } else r) })
      | none =>
        (some db.nextId,
         { db with portfolios := db.portfolios ++ [⟨db.nextId, u, w, c⟩],
                   nextId := db.nextId + 1 }) := rfl

/-- A state write preserves the all-rows-running invariant. -/
theorem allRunning_write_state (env : CoordEnv) (db : StoreDB)
    (cache : List CacheEntry) (now : Nat) (s : AgentState)
    (h : allRunning db) : allRunning (write_state env db cache now s).2.1 := by
  intro r hr
  simp only [write_state] at hr
  by_cases hsb : (env.sb && env.storeOk) = true
  · rw [if_pos hsb] at hr
    obtain ⟨r0, hr0, hfr⟩ := List.mem_map.mp hr
    by_cases hid : (r0.execution_id == s.execution_id) = true
    · rw [if_pos hid] at hfr
      rw [← hfr]
    · rw [if_neg hid] at hfr
      rw [← hfr]
      exact h r0 hr0
  · rw [if_neg hsb] at hr
    exact h r hr

/-- Creating an execution preserves the all-rows-running invariant. -/
theorem allRunning_init_execution (env : CoordEnv) (pid : String)
    (s : AgentState) (db : StoreDB) (h : allRunning db) :
    allRunning (init_execution env pid s db).2 := by
  intro r hr
  unfold init_execution at hr
  split at hr
  · exact h r hr
  · split at hr
    · exact h r hr
    · simp only at hr
      rcases List.mem_append.mp hr with h3 | h3
      · exact h r h3
      · rw [List.mem_singleton.mp h3]

/-- Portfolio creation never touches the executions table. -/
theorem executions_create_portfolio (env : CoordEnv) (u w : String) (c : Nat)
    (db : StoreDB) : ((create_portfolio env u w c db).2).executions =
      db.executions := by
  unfold create_portfolio
  repeat' (first | rfl | split)

/-- Decision logging never touches the executions table. -/
theorem executions_log_agent_decision (env : CoordEnv) (db : StoreDB)
    (pid eid an dt : String) (dd : DecisionData) (r : String) :
    (log_agent_decision env db pid eid an dt dd r).executions =
      db.executions := by
  unfold log_agent_decision
  split <;> rfl

/-- Reasoning logging never touches the executions table. -/
theorem executions_log_agent_reasoning (env : CoordEnv) (db : StoreDB)
    (eid an : String) (step : Nat) (txt : String) :
    (log_agent_reasoning env db eid an step txt).executions =
      db.executions := by
  unfold log_agent_reasoning
  split <;> rfl

/-- Risk recording never touches the executions table. -/
theorem executions_record_risk_assessment (env : CoordEnv) (db : StoreDB)
    (pid eid proto : String) (score : ℚ) (factors : String) (safe : Bool) :
    (record_risk_assessment env db pid eid proto score factors
      safe).executions = db.executions := by
  unfold record_risk_assessment
  split <;> rfl

/-- Balance recording never touches the executions table. -/
theorem executions_update_balance (env : CoordEnv) (db : StoreDB)
    (pid asset loc : String) (amt : ℚ) :
    (update_balance env db pid asset loc amt).executions = db.executions := by
  unfold update_balance
  split <;> rfl

/-- Transaction recording never touches the executions table. -/
theorem executions_record_transaction (env : CoordEnv) (db : StoreDB)
    (pid eid txh proto act : String) (amt : ℚ) (st : String) :
    (record_transaction env db pid eid txh proto act amt st).executions =
      db.executions := by
  unfold record_transaction
  split <;> rfl

/-! ## The claims -/

/-- C1: for every positions map, balances map and non-empty opportunity list, the strategy agent's proposal follows the specified rule.  The source function `analyze_opportunities` coincides with `strategyRuleSpec`, written from the specification's words; the opportunity Python's `max` picks is the first one attaining the maximum APY (decomposition with a strictly-smaller prefix); a non-empty opportunity list always yields a proposal; and on the worked scenario the result is a migrate to compound with source aave, asset USDC, amount 10000, APYs 0.05 and 0.09 and gain 0.04 at threshold 0.02, and a hold at threshold 0.05.  Determinism and freedom from side effects hold because the embedding is a pure function of its inputs. -/
theorem C1_strategy_proposal_rule :
    (∀ (positions : List (String × Position)) (balances : List (String × ℚ))
        (opportunities : List Opportunity) (minApyDiff : ℚ),
      analyze_opportunities positions balances opportunities minApyDiff =
        strategyRuleSpec positions balances opportunities minApyDiff) ∧
    (∀ (l : List Opportunity) (b : Opportunity), pyMaxByApy l = some b →
      ∃ l1 l2, l = l1 ++ b :: l2 ∧ (∀ o ∈ l, o.apy ≤ b.apy) ∧
        ∀ o ∈ l1, o.apy < b.apy) ∧
    (∀ (positions : List (String × Position)) (balances : List (String × ℚ))
        (opportunities : List Opportunity) (minApyDiff : ℚ),
      opportunities ≠ [] →
      ∃ pr, analyze_opportunities positions balances opportunities minApyDiff
        = some pr) ∧
    ((analyze_opportunities scenPositions scenBalances scenOpps (2/100)).map
        (fun p => (p.action, p.source, p.destination, p.asset, p.amount,
          p.current_apy, p.new_apy, p.apy_gain)) =
      some ("migrate", some "aave", some "compound", some "USDC", some 10000,
        some (5/100), some (9/100), some (4/100))) ∧
    ((analyze_opportunities scenPositions scenBalances scenOpps (5/100)).map
        (fun p => p.action) = some "hold") := by
  refine ⟨analyze_opportunities_eq_rule, pyMaxByApy_decomp, ?_, ?_, ?_⟩
  · intro positions balances opportunities minApyDiff h
    cases opportunities with
    | nil => exact absurd rfl h
    | cons x xs =>
      simp only [analyze_opportunities, pyMaxByApy]
      split
      · exact ⟨_, rfl⟩
      · exact ⟨_, rfl⟩
  · norm_num [analyze_opportunities, pyMaxByApy, firstPositionWithApy,
      scenPositions, scenBalances, scenOpps]
  · norm_num [analyze_opportunities, pyMaxByApy, firstPositionWithApy,
      scenPositions, scenBalances, scenOpps]

/-- Witness for C1 at the worked scenario: the decomposition hypothesis and the non-emptiness hypothesis are discharged on the concrete opportunity list. -/
theorem C1_strategy_proposal_rule_witness :
    (∃ l1 l2, scenOpps = l1 ++ (⟨"compound", 9/100⟩ : Opportunity) :: l2 ∧
      (∀ o ∈ scenOpps, o.apy ≤ ((⟨"compound", 9/100⟩ : Opportunity)).apy) ∧
      ∀ o ∈ l1, o.apy < ((⟨"compound", 9/100⟩ : Opportunity)).apy) ∧
    (∃ pr, analyze_opportunities scenPositions scenBalances scenOpps (2/100) =
      some pr) :=
  ⟨C1_strategy_proposal_rule.2.1 scenOpps ⟨"compound", 9/100⟩
      (by norm_num [pyMaxByApy, scenOpps]),
   C1_strategy_proposal_rule.2.2.1 scenPositions scenBalances scenOpps (2/100)
      (by simp [scenOpps])⟩

/-- Counterexample to C2 as stated: with a failing Store write, the `write_state` call still returns normally with the stamped state, the store is left unchanged, and the cache is even refreshed — the Store failure is not reported to the caller. -/
theorem C2_counterexample :
    write_state_call { envOk with storeOk := false } sampleDB [] 5
        sampleState =
      Except.ok ({ sampleState with updated_at := 5 }, sampleDB,
        [⟨"state:e1", { sampleState with updated_at := 5 }, 300⟩]) := by
  rfl

/-- C2 (amended): `write_state` stamps `updated_at` with the current time, always returns normally, persists the matching execution row with the stamped value and status running when the Store is healthy, then refreshes the Cache with the same value under a 300-second TTL; if only the Cache refresh fails the call still succeeds with the identical Store effect; and if the Store write fails the error is swallowed — the call still succeeds and refreshes the cache, leaving the store unchanged. -/
theorem C2_write_state_behaviour :
    (∀ (env : CoordEnv) (db : StoreDB) (cache : List CacheEntry) (now : Nat)
        (s : AgentState),
      (write_state env db cache now s).1 = { s with updated_at := now }) ∧
    (∀ (env : CoordEnv) (db : StoreDB) (cache : List CacheEntry) (now : Nat)
        (s : AgentState),
      write_state_call env db cache now s =
        .ok (write_state env db cache now s)) ∧
    (∀ (db : StoreDB) (cache : List CacheEntry) (now : Nat) (s : AgentState)
        (r : ExecRow), r ∈ db.executions → r.execution_id = s.execution_id →
      ({ r with state_data := { s with updated_at := now },
                status := "running", updated_at := now } : ExecRow) ∈
        (write_state envOk db cache now s).2.1.executions) ∧
    (∀ (db : StoreDB) (cache : List CacheEntry) (now : Nat) (s : AgentState),
      cacheGet (write_state envOk db cache now s).2.2
          ("state:" ++ s.execution_id) = some { s with updated_at := now } ∧
      (write_state envOk db cache now s).2.2 =
        cacheSetex cache ("state:" ++ s.execution_id) 300
          { s with updated_at := now }) ∧
    (∀ (db : StoreDB) (cache : List CacheEntry) (now : Nat) (s : AgentState),
      (write_state { envOk with cacheOk := false } db cache now s).1 =
        (write_state envOk db cache now s).1 ∧
      (write_state { envOk with cacheOk := false } db cache now s).2.1 =
        (write_state envOk db cache now s).2.1 ∧
      (write_state { envOk with cacheOk := false } db cache now s).2.2 =
        cache) ∧
    (∀ (db : StoreDB) (cache : List CacheEntry) (now : Nat) (s : AgentState),
      write_state { envOk with storeOk := false } db cache now s =
        ({ s with updated_at := now }, db,
          cacheSetex cache ("state:" ++ s.execution_id) 300
            { s with updated_at := now })) := by
  refine ⟨fun env db cache now s => rfl, fun env db cache now s => rfl,
    ?_, ?_, ?_, fun db cache now s => rfl⟩
  · intro db cache now s r hr he
    simp only [write_state, envOk, Bool.and_self, if_true]
    refine List.mem_map.mpr ⟨r, hr, ?_⟩
    simp [he]
  · intro db cache now s
    constructor
    · simp [write_state, envOk, cacheGet, cacheSetex]
    · rfl
  · intro db cache now s
    exact ⟨rfl, rfl, rfl⟩

/-- Witness for C2 at the sample execution row: the membership and key hypotheses are discharged concretely. -/
theorem C2_witness :
    ({ execution_id := "e1", portfolio_id := "p1",
       state_data := { sampleState with updated_at := 5 },
       status := "running", updated_at := 5 } : ExecRow) ∈
      (write_state envOk sampleDB [] 5 sampleState).2.1.executions :=
  C2_write_state_behaviour.2.2.1 sampleDB [] 5 sampleState
    ⟨"e1", "p1", sampleState, "running", 0⟩ (by simp [sampleDB]) rfl

/-- Counterexample to C3 as stated: a cache miss followed by a Store hit returns the state while leaving the cache empty — the cache is not repopulated with the state before returning. -/
theorem C3_counterexample :
    read_state envOk sampleDB [] "e1" =
      (some sampleState, ([] : List CacheEntry)) ∧
    cacheGet [] "state:e1" = none := by
  exact ⟨rfl, rfl⟩

/-- C3 (amended): `read_state` consults the Cache first and returns the cached state on a hit; a cache error does not prevent the Store read from succeeding; when neither the cache nor the store holds the state it returns NotFound; and — contrary to the original claim — the cache is never repopulated on a Store hit: the cache after the call equals the cache before it on every path. -/
theorem C3_read_state_behaviour :
    (∀ (env : CoordEnv) (db : StoreDB) (cache : List CacheEntry) (id : String)
        (v : AgentState), env.redis = true → env.cacheOk = true →
      cacheGet cache ("state:" ++ id) = some v →
      read_state env db cache id = (some v, cache)) ∧
    (∀ (db : StoreDB) (cache : List CacheEntry) (id : String),
      read_state { envOk with cacheOk := false } db cache id =
        ((db.executions.find? (fun r => r.execution_id == id)).map
          (fun r => r.state_data), cache)) ∧
    (∀ (env : CoordEnv) (db : StoreDB) (cache : List CacheEntry) (id : String),
      (read_state env db cache id).2 = cache) ∧
    (∀ (db : StoreDB) (cache : List CacheEntry) (id : String),
      cacheGet cache ("state:" ++ id) = none →
      read_state envOk db cache id =
        ((db.executions.find? (fun r => r.execution_id == id)).map
          (fun r => r.state_data), cache)) := by
  refine ⟨?_, ?_, ?_, ?_⟩
  · intro env db cache id v h1 h2 h3
    simp [read_state, h1, h2, h3]
  · intro db cache id
    simp only [read_state, envOk]
    cases hf : db.executions.find? (fun r => r.execution_id == id) with
    | none => simp [hf]
    | some row => simp [hf]
  · intro env db cache id
    unfold read_state
    repeat' (first | rfl | split)
    all_goals cases hg : cacheGet cache ("state:" ++ id) <;> simp [hg]
  · intro db cache id h
    simp only [read_state, envOk, Bool.and_self, if_true, h]
    cases hf : db.executions.find? (fun r => r.execution_id == id) with
    | none => simp [hf]
    | some row => simp [hf]

/-- Witness for C3 at a concrete cache hit: the hit hypotheses are discharged on an explicit cache entry. -/
theorem C3_witness :
    read_state envOk sampleDB [⟨"state:e1", sampleStateHold, 300⟩] "e1" =
      (some sampleStateHold, [⟨"state:e1", sampleStateHold, 300⟩]) :=
  C3_read_state_behaviour.1 envOk sampleDB
    [⟨"state:e1", sampleStateHold, 300⟩] "e1" sampleStateHold rfl rfl rfl

/-- C4: evaluation of the agent execute contract at concrete inputs, exhibiting the violations.  On a migrate proposal the risk agent's assessment path returns nothing (the source falls off with a bare return, contradicting the base class's own contract to return the updated state); on a hold proposal its short-circuit path returns the updated state but leaves the store untouched — no persistence through the coordination layer; and the orchestrator's failure path persists nothing either. -/
theorem C4_execute_contract_violations :
    (risk_execute envOk sampleAssess 6 7 sampleDB [] sampleStateMigrate).ret =
      none ∧
    (risk_execute envOk sampleAssess 6 7 sampleDB [] sampleStateHold).db =
      sampleDB ∧
    (risk_execute envOk sampleAssess 6 7 sampleDB [] sampleStateHold).ret =
      some (risk_execute envOk sampleAssess 6 7 sampleDB []
        sampleStateHold).state ∧
    (risk_execute envOk sampleAssess 6 7 sampleDB []
      sampleStateHold).state.next_agent = "orchestrator" ∧
    (orchestrator_execute envOk (.fail "oracle down") 7 sampleDB []
      sampleState).db = sampleDB := by
  exact ⟨rfl, rfl, rfl, rfl, rfl⟩

/-- C5: `iteration_count` increases by exactly 1 on every orchestrator pass that obtains and parses a routing decision, is left unchanged by an orchestrator pass that fails, unchanged by the risk agent on every path and by the strategy agent whether or not its analysis raises, and never decreases across any orchestrator execution. -/
theorem C5_iteration_count_monotonic :
    (∀ (env : CoordEnv) (d : OracleDecision) (now : Nat) (db : StoreDB)
        (cache : List CacheEntry) (s : AgentState),
      (orchestrator_execute env (.ok d) now db cache s).state.iteration_count =
        s.iteration_count + 1) ∧
    (∀ (env : CoordEnv) (msg : String) (now : Nat) (db : StoreDB)
        (cache : List CacheEntry) (s : AgentState),
      (orchestrator_execute env (.fail msg) now db cache
        s).state.iteration_count = s.iteration_count) ∧
    (∀ (env : CoordEnv) (assess : String → ℚ × String) (threshold : ℚ)
        (now : Nat) (db : StoreDB) (cache : List CacheEntry) (s : AgentState),
      (risk_execute env assess threshold now db cache s).state.iteration_count
        = s.iteration_count) ∧
    (∀ (env : CoordEnv) (opps : List Opportunity) (minApyDiff : ℚ) (now : Nat)
        (db : StoreDB) (cache : List CacheEntry) (s : AgentState),
      (((defi_execute env opps minApyDiff now db cache s).map
        (fun r => r.state)).getD s).iteration_count = s.iteration_count) ∧
    (∀ (env : CoordEnv) (oracle : OracleResult) (now : Nat) (db : StoreDB)
        (cache : List CacheEntry) (s : AgentState),
      s.iteration_count ≤
        (orchestrator_execute env oracle now db cache s).state.iteration_count)
    := by
  refine ⟨?_, ?_, ?_, ?_, ?_⟩
  · intro env d now db cache s
    simp [orchestrator_execute, log_reasoning, write_state]
  · intro env msg now db cache s
    rfl
  · intro env assess threshold now db cache s
    cases hp : s.defi_proposal with
    | none => simp [risk_execute, hp]
    | some p =>
      by_cases ha : p.action == "hold"
      · simp [risk_execute, hp, ha]
      · simp [risk_execute, hp, ha, log_reasoning, write_state]
  · intro env opps minApyDiff now db cache s
    cases hp : analyze_opportunities s.positions s.balances opps minApyDiff with
    | none => simp [defi_execute, hp]
    | some pr => simp [defi_execute, hp, log_reasoning, write_state]
  · intro env oracle now db cache s
    cases oracle with
    | ok d => simp [orchestrator_execute, log_reasoning, write_state]
    | fail msg => simp [orchestrator_execute]

/-- Counterexample to C6 as stated: one invocation of the risk agent on a hold proposal leaves the reasoning chain empty — the chain does not grow by one entry per invocation on every code path. -/
theorem C6_counterexample :
    (risk_execute envOk sampleAssess 6 7 sampleDB []
      sampleStateHold).state.agent_reasoning = [] ∧
    sampleStateHold.agent_reasoning = [] := by
  constructor
  · rfl
  · rfl

/-- C6 (amended): the shared `log_reasoning` helper appends exactly one in-memory entry of the form name-colon-text and best-effort inserts one durable row, never modifying earlier entries; each agent appends exactly one entry per invocation on its success paths (orchestrator with a parsed decision, risk agent on a non-hold proposal, strategy agent when analysis succeeds); but the risk agent's short-circuit path and the orchestrator's failure path append no entry. -/
theorem C6_reasoning_chain :
    (∀ (name : String) (env : CoordEnv) (db : StoreDB) (s : AgentState)
        (r : String),
      (log_reasoning name env db s r).1.agent_reasoning =
        s.agent_reasoning ++ [name ++ ": " ++ r] ∧
      (log_reasoning name env db s r).2.reasonings =
        db.reasonings ++ (if env.sb && env.reasonOk then
          [⟨s.execution_id, name, s.iteration_count, r⟩] else [])) ∧
    (∀ (env : CoordEnv) (d : OracleDecision) (now : Nat) (db : StoreDB)
        (cache : List CacheEntry) (s : AgentState),
      (orchestrator_execute env (.ok d) now db cache s).state.agent_reasoning =
        s.agent_reasoning ++
          ["Orchestrator: " ++ d.reasoning.getD "No reasoning provided"]) ∧
    (∀ (env : CoordEnv) (msg : String) (now : Nat) (db : StoreDB)
        (cache : List CacheEntry) (s : AgentState),
      (orchestrator_execute env (.fail msg) now db cache
        s).state.agent_reasoning = s.agent_reasoning) ∧
    (∀ (env : CoordEnv) (assess : String → ℚ × String) (threshold : ℚ)
        (now : Nat) (db : StoreDB) (cache : List CacheEntry) (s : AgentState),
      (risk_execute env assess threshold now db cache
        { s with defi_proposal := none }).state.agent_reasoning =
        s.agent_reasoning) ∧
    (∀ (env : CoordEnv) (assess : String → ℚ × String) (threshold : ℚ)
        (now : Nat) (db : StoreDB) (cache : List CacheEntry) (s : AgentState)
        (p : Proposal),
      (risk_execute env assess threshold now db cache
        { s with defi_proposal := some p }).state.agent_reasoning =
        if p.action = "hold" then s.agent_reasoning
        else s.agent_reasoning ++ ["Risk_Agent: " ++
          riskReasoningText (assess (p.destination.getD "Unknown")).1
            ((assess (p.destination.getD "Unknown")).1 < threshold)]) ∧
    (∀ (env : CoordEnv) (opps : List Opportunity) (minApyDiff : ℚ) (now : Nat)
        (db : StoreDB) (cache : List CacheEntry) (s : AgentState),
      (defi_execute env opps minApyDiff now db cache s).map
          (fun r => r.state.agent_reasoning) =
        (analyze_opportunities s.positions s.balances opps minApyDiff).map
          (fun pr => s.agent_reasoning ++ ["DeFi_Agent: " ++ pr.reasoning]))
    := by
  refine ⟨?_, ?_, ?_, ?_, ?_, ?_⟩
  · intro name env db s r
    constructor
    · rfl
    · simp only [log_reasoning, log_agent_reasoning]
      by_cases h : env.sb && env.reasonOk
      · simp [h]
      · simp [h]
  · intro env d now db cache s
    simp [orchestrator_execute, log_reasoning, write_state]
  · intro env msg now db cache s
    rfl
  · intro env assess threshold now db cache s
    simp [risk_execute]
  · intro env assess threshold now db cache s p
    by_cases ha : p.action = "hold"
    · simp [risk_execute, ha]
    · simp [risk_execute, ha, log_reasoning, write_state]
  · intro env opps minApyDiff now db cache s
    cases hp : analyze_opportunities s.positions s.balances opps minApyDiff with
    | none => simp [defi_execute, hp]
    | some pr => simp [defi_execute, hp, log_reasoning, write_state]

/-- C7: for every oracle failure, the orchestrator catches it, appends the error message to `error_messages`, sets `next_agent` to the terminal sentinel END and returns the state; store and cache are untouched, and no exception escapes — the embedding of execute is total on the failure constructor. -/
theorem C7_orchestrator_failure_handling :
    ∀ (env : CoordEnv) (msg : String) (now : Nat) (db : StoreDB)
      (cache : List CacheEntry) (s : AgentState),
      orchestrator_execute env (.fail msg) now db cache s =
        ⟨some { s with error_messages := s.error_messages ++ [msg],
                       next_agent := "END" },
         { s with error_messages := s.error_messages ++ [msg],
                  next_agent := "END" }, db, cache⟩ := by
  intro env msg now db cache s
  rfl

/-- C8: evaluating the code at the claim's input — with an empty opportunity list the strategy analysis raises (Python's max of an empty sequence, embedded as none) and the exception escapes the strategy agent's execute, instead of producing the hold proposal the claim requires. -/
theorem C8_empty_opportunities_raise :
    analyze_opportunities scenPositions scenBalances [] (2/100) = none ∧
    defi_execute envOk [] (2/100) 7 sampleDB [] sampleState = none := by
  constructor
  · rfl
  · rfl

/-- C9: `create_portfolio` (the specification's getOrCreatePortfolio) is idempotent in the wallet address: given the schema's uniqueness of wallet addresses (at most one existing row), two calls with the same wallet address both return some id and the same id, exactly one portfolio record for that wallet exists afterwards, and the second call creates no additional record. -/
theorem C9_create_portfolio_idempotent
    (u1 u2 w : String) (c1 c2 : Nat) (db : StoreDB)
    (h : walletCount db w ≤ 1) :
    (create_portfolio envOk u1 w c1 db).1.isSome = true ∧
    (create_portfolio envOk u2 w c2 (create_portfolio envOk u1 w c1 db).2).1 =
      (create_portfolio envOk u1 w c1 db).1 ∧
    walletCount (create_portfolio envOk u2 w c2
      (create_portfolio envOk u1 w c1 db).2).2 w = 1 ∧
    (create_portfolio envOk u2 w c2
      (create_portfolio envOk u1 w c1 db).2).2.portfolios.length =
      (create_portfolio envOk u1 w c1 db).2.portfolios.length := by
  have hpres1 : ∀ (u : String) (c : Nat) (r : PortfolioRow),
      ((if r.wallet_address == w then
        { r with user_id := u, chain_id := c } else r).wallet_address == w) =
        (r.wallet_address == w) := by
    intro u c r
    by_cases hr : (r.wallet_address == w) = true
    · simp [hr]
    · simp [hr]
  rw [create_portfolio_envOk]
  cases hf : db.portfolios.find? (fun r => r.wallet_address == w) with
  | none =>
    have hall : ∀ r ∈ db.portfolios, (r.wallet_address == w) = false := by
      intro r hr
      have := List.find?_eq_none.mp hf r hr
      simpa using this
    have hnew : ((⟨db.nextId, u1, w, c1⟩ : PortfolioRow).wallet_address == w)
        = true := by simp
    have hf2 : ((db.portfolios ++ [⟨db.nextId, u1, w, c1⟩] :
          List PortfolioRow)).find? (fun r => r.wallet_address == w) =
          some ⟨db.nextId, u1, w, c1⟩ :=
      find?_first_in_append _ db.portfolios _ [] hall hnew
    rw [create_portfolio_envOk]
    simp only [hf2]
    refine ⟨by simp, by simp, ?_, by simp⟩
    unfold walletCount
    simp only
    rw [countP_map_eq _ _ _ (hpres1 u2 c2)]
    rw [List.countP_append]
    have h0 : db.portfolios.countP (fun r => r.wallet_address == w) = 0 := by
      rw [List.countP_eq_zero]
      intro r hr
      simp [hall r hr]
    simp [h0, List.countP_cons, hnew]
  | some row =>
    have hrow : (row.wallet_address == w) = true := by
      have h2 := List.find?_some hf
      simpa using h2
    have hmem : row ∈ db.portfolios := List.mem_of_find?_eq_some hf
    have hf2 : (db.portfolios.map (fun r =>
        if r.wallet_address == w then
          { r with user_id := u1, chain_id := c1 } else r)).find?
        (fun r => r.wallet_address == w) =
        some (if row.wallet_address == w then
          { row with user_id := u1, chain_id := c1 } else row) := by
      rw [find?_map_eq _ _ _ (hpres1 u1 c1), hf]
      rfl
    rw [create_portfolio_envOk]
    simp only [hf2]
    have hid : (if row.wallet_address == w then
        { row with user_id := u1, chain_id := c1 } else row).id = row.id := by
      rw [if_pos hrow]
    refine ⟨by simp, by simp only [hid], ?_, by simp⟩
    unfold walletCount
    simp only
    rw [countP_map_eq _ _ _ (hpres1 u2 c2), countP_map_eq _ _ _ (hpres1 u1 c1)]
    have hpos : 0 < db.portfolios.countP (fun r => r.wallet_address == w) :=
      List.countP_pos_iff.mpr ⟨row, hmem, hrow⟩
    have hle : db.portfolios.countP (fun r => r.wallet_address == w) ≤ 1 := h
    omega

/-- Witness for C9 at the sample store: the uniqueness hypothesis is discharged by computation. -/
theorem C9_witness :
    walletCount sampleDB "0xDemoWallet123" ≤ 1 ∧
    ((create_portfolio envOk "demo_user_1" "0xDemoWallet123" 1
        sampleDB).1.isSome = true ∧
      (create_portfolio envOk "user2" "0xDemoWallet123" 1
        (create_portfolio envOk "demo_user_1" "0xDemoWallet123" 1
          sampleDB).2).1 =
        (create_portfolio envOk "demo_user_1" "0xDemoWallet123" 1
          sampleDB).1 ∧
      walletCount (create_portfolio envOk "user2" "0xDemoWallet123" 1
        (create_portfolio envOk "demo_user_1" "0xDemoWallet123" 1
          sampleDB).2).2 "0xDemoWallet123" = 1 ∧
      (create_portfolio envOk "user2" "0xDemoWallet123" 1
        (create_portfolio envOk "demo_user_1" "0xDemoWallet123" 1
          sampleDB).2).2.portfolios.length =
        (create_portfolio envOk "demo_user_1" "0xDemoWallet123" 1
          sampleDB).2.portfolios.length) :=
  ⟨by decide,
   C9_create_portfolio_idempotent "demo_user_1" "user2" "0xDemoWallet123" 1 1
     sampleDB (by decide)⟩

/-- C10: every row a `write_state` leaves in the store either carries status running or was already present; `init_execution` appends a row with status running; a Store-reaching write persists the matching row with status running even when the state routes to the terminal sentinel END; and across any sequence of coordination-layer calls the all-rows-running invariant is preserved — no operation ever sets a persisted execution's status to a terminal value. -/
theorem C10_status_always_running :
    (∀ (env : CoordEnv) (db : StoreDB) (cache : List CacheEntry) (now : Nat)
        (s : AgentState) (r2 : ExecRow),
      r2 ∈ (write_state env db cache now s).2.1.executions →
      r2.status = "running" ∨ r2 ∈ db.executions) ∧
    (∀ (pid : String) (s : AgentState) (db : StoreDB),
      (init_execution envOk pid s db).2.executions = db.executions ++
        [{ execution_id := "exec_" ++ toString db.nextId, portfolio_id := pid,
           state_data := s, status := "running",
           updated_at := s.updated_at }]) ∧
    (∀ (db : StoreDB) (cache : List CacheEntry) (now : Nat) (s : AgentState)
        (r : ExecRow), r ∈ db.executions → r.execution_id = s.execution_id →
      ({ r with state_data := { s with next_agent := "END",
                                       updated_at := now },
                status := "running", updated_at := now } : ExecRow) ∈
        (write_state envOk db cache now
          { s with next_agent := "END" }).2.1.executions) ∧
    (∀ (ops : List CoordOp) (db : StoreDB) (cache : List CacheEntry),
      allRunning db → allRunning (runOps (db, cache) ops).1) := by
  refine ⟨?_, ?_, ?_, ?_⟩
  · intro env db cache now s r2 hr
    simp only [write_state] at hr
    by_cases hsb : (env.sb && env.storeOk) = true
    · rw [if_pos hsb] at hr
      obtain ⟨r0, hr0, hfr⟩ := List.mem_map.mp hr
      by_cases hid : (r0.execution_id == s.execution_id) = true
      · left
        rw [← hfr, if_pos hid]
      · right
        rw [← hfr, if_neg hid]
        exact hr0
    · rw [if_neg hsb] at hr
      right
      exact hr
  · intro pid s db
    rfl
  · intro db cache now s r hr he
    simp only [write_state, envOk, Bool.and_self, if_true]
    refine List.mem_map.mpr ⟨r, hr, ?_⟩
    simp [he]
  · intro ops
    induction ops with
    | nil =>
      intro db cache h
      simpa [runOps] using h
    | cons op t ih =>
      intro db cache h
      have hstep : allRunning (applyOp (db, cache) op).1 := by
        cases op with
        | opWrite env now s => exact allRunning_write_state env db cache now s h
        | opInit env pid s => exact allRunning_init_execution env pid s db h
        | opRead env eid => exact h
        | opCreatePortfolio env u wa c =>
          intro r hr
          simp only [applyOp, executions_create_portfolio] at hr
          exact h r hr
        | opLogDecision env pid eid an dt dd rs =>
          intro r hr
          simp only [applyOp, executions_log_agent_decision] at hr
          exact h r hr
        | opLogReasoning env eid an step txt =>
          intro r hr
          simp only [applyOp, executions_log_agent_reasoning] at hr
          exact h r hr
        | opRecordRisk env pid eid proto score factors safe =>
          intro r hr
          simp only [applyOp, executions_record_risk_assessment] at hr
          exact h r hr
        | opUpdateBalance env pid asset loc amt =>
          intro r hr
          simp only [applyOp, executions_update_balance] at hr
          exact h r hr
        | opRecordTx env pid eid txh proto act amt st =>
          intro r hr
          simp only [applyOp, executions_record_transaction] at hr
          exact h r hr
      have h2 := ih (applyOp (db, cache) op).1 (applyOp (db, cache) op).2 hstep
      simpa [runOps] using h2

/-- Witness for C10: the persisted-row and invariant conjuncts applied at the sample store and a concrete operation sequence, discharging the membership, key and invariant hypotheses. -/
theorem C10_witness :
    (({ execution_id := "e1", portfolio_id := "p1", state_data := { sampleState with next_agent := "END", updated_at := 5 }, status := "running", updated_at := 5 } : ExecRow) ∈
      (write_state envOk sampleDB [] 5
        { sampleState with next_agent := "END" }).2.1.executions) ∧
    allRunning (runOps (sampleDB, [])
      [CoordOp.opWrite envOk 5 { sampleState with next_agent := "END" },
       CoordOp.opInit envOk "p1" sampleState]).1 :=
  ⟨C10_status_always_running.2.2.1 sampleDB [] 5 sampleState
      ⟨"e1", "p1", sampleState, "running", 0⟩ (by simp [sampleDB]) rfl,
   C10_status_always_running.2.2.2
      [CoordOp.opWrite envOk 5 { sampleState with next_agent := "END" },
       CoordOp.opInit envOk "p1" sampleState] sampleDB []
      (by intro r hr; simp [sampleDB] at hr; rw [hr])⟩

end H2K
